import Mathlib

/-
  Verification development for the conclusion-cliff run simulator
  (single source file: src/main.py).  The game-state record, the
  crafting / loot engines, the run and chapter state machine, the hunt
  orchestrator and the snapshot history manager are embedded shallowly:
  Python dicts over the fixed key sets become total functions out of
  finite enumerations, Python floats become rationals, fallible
  handlers become Option-valued functions (none = the handler returned
  before committing, so the committed state is unchanged), and every
  random draw is passed in as an explicit oracle argument.
-/

namespace Cliff

/-- The five base genres (BASE_GENRES in the source). -/
inductive BaseGenre
  | romance
  | adventure
  | comedy
  | tragedy
  | suspense
deriving DecidableEq, Repr

/-- Iteration order of BASE_GENRES. -/
def BaseGenre.all : List BaseGenre :=
  [.romance, .adventure, .comedy, .tragedy, .suspense]

/-- A genre tag: one of the base genres or the bonus Fantasy genre. -/
inductive GenreTag
  | base (g : BaseGenre)
  | fantasy
deriving DecidableEq, Repr

/-- The seven fixed resource kinds (RESOURCE_KEYS). -/
inductive ResKey
  | mallets
  | t1Cheese
  | t2Cheese
  | t3Cheese
  | thread
  | machinery
  | diamond
deriving DecidableEq, Repr

/-- The four consumable kinds (CONSUMABLE_KEYS). -/
inductive ConKey
  | cc
  | hooks
  | gold
  | me
deriving DecidableEq, Repr

/-- A material is either a resource key or a consumable key
(ALL_MATERIAL_TYPES in the source). -/
inductive Material
  | res (k : ResKey)
  | con (k : ConKey)
deriving DecidableEq, Repr

/-- The nine built-in enemies of DEFAULT_ENEMY_DROPS. -/
inductive Enemy
  | t1Mouse
  | t2Mouse
  | t3Mouse
  | weaverT1
  | weaverT2
  | weaverT3
  | mythT1
  | mythT2
  | mythT3
deriving DecidableEq, Repr

/-- The three cheese tiers. -/
inductive Cheese
  | t1
  | t2
  | t3
deriving DecidableEq, Repr

/-- DEFAULT_ENEMY_DROPS: the built-in drop table of each enemy, as the
ordered association list the Python dict iterates over. -/
def defaultEnemyDrops : Enemy → List (Material × ℚ)
  | .t1Mouse => [(.res .thread, 1.54), (.con .gold, 7500)]
  | .t2Mouse => [(.res .machinery, 2.43), (.con .gold, 16500)]
  | .t3Mouse => [(.con .gold, 25000)]
  | .weaverT1 => [(.con .gold, 25000), (.res .mallets, 1.5), (.res .thread, 1.54)]
  | .weaverT2 => [(.con .gold, 25000), (.res .mallets, 1.5), (.res .machinery, 2.43)]
  | .weaverT3 => [(.con .gold, 25000), (.res .mallets, 1.5)]
  | .mythT1 => [(.con .gold, 225000), (.res .diamond, 1), (.res .mallets, 2.3), (.res .thread, 1.54)]
  | .mythT2 => [(.con .gold, 225000), (.res .diamond, 1), (.res .mallets, 2.3), (.res .machinery, 2.43)]
  | .mythT3 => [(.con .gold, 225000), (.res .diamond, 1), (.res .mallets, 2.3)]

/-- One entry of CHEESE_HUNT_RULES. -/
structure CheeseRule where
  resource : ResKey
  pageGain : ℚ
  chapterEnemy : Enemy
  postEnemy : Enemy
  postFantasyEnemy : Enemy
  notorietyGain : ℤ
deriving DecidableEq, Repr

/-- CHEESE_HUNT_RULES. -/
def cheeseRule : Cheese → CheeseRule
  | .t1 => ⟨.t1Cheese, 25, .t1Mouse, .weaverT1, .mythT1, 25⟩
  | .t2 => ⟨.t2Cheese, 50, .t2Mouse, .weaverT2, .mythT2, 50⟩
  | .t3 => ⟨.t3Cheese, 125, .t3Mouse, .weaverT3, .mythT3, 125⟩

/-- CHAPTER_LENGTHS. -/
def chapterLengths : List ℤ := [10, 20, 30]

/-- TOTAL_CHAPTERS. -/
def totalChapters : ℤ := 6

/-- A crafting recipe: output and cost association lists (RECIPES entries). -/
structure Recipe where
  outputs : List (Material × ℚ)
  costs : List (Material × ℚ)
deriving DecidableEq, Repr

/-- Recipe "6 hook + 2000 Gold to 1 T1 cheese". -/
def recipeT1A : Recipe := ⟨[(.res .t1Cheese, 1)], [(.con .hooks, 6), (.con .gold, 2000)]⟩

/-- Recipe "6 hook + 16000 Gold to 2 T1 cheese". -/
def recipeT1B : Recipe := ⟨[(.res .t1Cheese, 2)], [(.con .hooks, 6), (.con .gold, 16000)]⟩

/-- Recipe "12 T1 cheese + 24 Thread + 1 ME to 2 T2 cheese". -/
def recipeT2 : Recipe :=
  ⟨[(.res .t2Cheese, 2)], [(.res .t1Cheese, 12), (.res .thread, 24), (.con .me, 1)]⟩

/-- Recipe "48 T1 cheese + 60 Machinery + 1 ME to 2 T3 cheese". -/
def recipeT3 : Recipe :=
  ⟨[(.res .t3Cheese, 2)], [(.res .t1Cheese, 48), (.res .machinery, 60), (.con .me, 1)]⟩

/-- Recipe "30 Machinery to 1 Mallet". -/
def recipeMallet : Recipe := ⟨[(.res .mallets, 1)], [(.res .machinery, 30)]⟩

/-- RECIPES. -/
def recipes : List Recipe := [recipeT1A, recipeT1B, recipeT2, recipeT3, recipeMallet]

/-- GameState: the complete serializable snapshot (dataclass GameState). -/
@[ext]
structure GameState where
  resources : ResKey → ℚ
  consumables : ConKey → ℚ
  notoriety : BaseGenre → ℤ
  enemyDrops : Enemy → List (Material × ℚ)
  genrePages : GenreTag → ℚ
  totalHunts : ℤ
  currentRunHunts : ℤ
  chapterPosition : ℤ
  currentChapterLength : Option ℤ
  currentChapterGenre : Option GenreTag
  currentChapterProgress : ℤ
  postscriptLength : ℤ
  pendingChapterChoices : List (ℤ × GenreTag)
  runFantasyAvailable : Bool
  postscriptExtended : Bool
  runMalletsSpent : ℤ
  totalMalletsSpent : ℤ
  totalDiamondsGain : ℚ
  pendingChoicesLocked : Bool

/-- The dataclass default GameState (a fresh idle state). -/
def GameState.fresh : GameState :=
  { resources := fun _ => 0
    consumables := fun _ => 0
    notoriety := fun _ => 0
    enemyDrops := defaultEnemyDrops
    genrePages := fun _ => 0
    totalHunts := 0
    currentRunHunts := 0
    chapterPosition := 0
    currentChapterLength := none
    currentChapterGenre := none
    currentChapterProgress := 0
    postscriptLength := 10
    pendingChapterChoices := []
    runFantasyAvailable := false
    postscriptExtended := false
    runMalletsSpent := 0
    totalMalletsSpent := 0
    totalDiamondsGain := 0
    pendingChoicesLocked := false }

/-- GameState.fantasy_unlocked: all base-genre notoriety values exceed 80. -/
def fantasy_unlocked (s : GameState) : Bool :=
  BaseGenre.all.all fun g => decide (80 < s.notoriety g)

/-- The resource or consumable bucket a material lands in. -/
def bucket (s : GameState) (m : Material) : ℚ :=
  match m with
  | .res k => s.resources k
  | .con k => s.consumables k

/-- SimulatorApp._apply_delta: add a delta to the matching resource or
consumable bucket (recipes only reference declared materials, so the
KeyError branch of the source is unreachable here by typing). -/
def apply_delta (s : GameState) (key : Material) (delta : ℚ) : GameState :=
  match key with
  | .res k => { s with resources := Function.update s.resources k (s.resources k + delta) }
  | .con k => { s with consumables := Function.update s.consumables k (s.consumables k + delta) }

/-- Apply every (material, amount) pair of a list, each scaled by the
same factor, with _apply_delta (the two loops of _craft). -/
def apply_deltas (s : GameState) (l : List (Material × ℚ)) (scale : ℚ) : GameState :=
  l.foldl (fun st p => apply_delta st p.1 (p.2 * scale)) s

/-- SimulatorApp._craft.  The quantity argument is the result of
_parse_int on the quantity entry (none for a non-integer string).  The
returned string is the value of the quantity text variable after the
call: reset to "1" on rejection, untouched on success. -/
def craft (r : Recipe) (parsed : Option ℤ) (qtyField : String) (s : GameState) :
    GameState × String :=
  match parsed with
  | none => (s, "1")
  | some q =>
      if q ≤ 0 then (s, "1")
      else (apply_deltas (apply_deltas s r.costs (-(q : ℚ))) r.outputs (q : ℚ), qtyField)

/-- SimulatorApp._apply_loot_amount.  Every Material is classified, so
the unclassified fallback branch coincides with the resource branch. -/
def apply_loot_amount (s : GameState) (m : Material) (amount : ℚ) : GameState :=
  match m with
  | .res k => { s with resources := Function.update s.resources k (s.resources k + amount) }
  | .con k => { s with consumables := Function.update s.consumables k (s.consumables k + amount) }

/-- One iteration of the loop in _apply_enemy_loot: scale the amount by
the multiplier unless the material is Gold or Diamond, record Diamond
gains in the lifetime counter, apply the amount, append the result line. -/
def lootStep (mult : ℚ) (acc : GameState × List (Material × ℚ)) (entry : Material × ℚ) :
    GameState × List (Material × ℚ) :=
  let value : ℚ :=
    if entry.1 = Material.con ConKey.gold ∨ entry.1 = Material.res ResKey.diamond then entry.2
    else entry.2 * mult
  let s1 :=
    if entry.1 = Material.res ResKey.diamond then
      { acc.1 with totalDiamondsGain := acc.1.totalDiamondsGain + value }
    else acc.1
  (apply_loot_amount s1 entry.1 value, acc.2 ++ [(entry.1, value)])

/-- The drop table _apply_enemy_loot actually iterates: the state's
table for the enemy, or the built-in default when the former is empty
(the Python `or` falls back on an empty dict). -/
def effectiveDrops (s : GameState) (e : Enemy) : List (Material × ℚ) :=
  if s.enemyDrops e = [] then defaultEnemyDrops e else s.enemyDrops e

/-- SimulatorApp._apply_enemy_loot. -/
def apply_enemy_loot (s : GameState) (e : Enemy) (mult : ℚ) :
    GameState × List (Material × ℚ) :=
  (effectiveDrops s e).foldl (lootStep mult) (s, [])

/-- SimulatorApp._adjust_notoriety: clamp the selected genre at
[0, 200] after adding the increase, then decrement every other genre
that is strictly above 1. -/
def adjust_notoriety (s : GameState) (selected : BaseGenre) (increase : ℤ) : GameState :=
  let bumped := Function.update s.notoriety selected
    (max 0 (min 200 (s.notoriety selected + increase)))
  { s with notoriety := fun g =>
      if g = selected then bumped g
      else if 1 < bumped g then bumped g - 1 else bumped g }

/-- SimulatorApp._handle_postscript_hunt with the weighted random draw
of _select_genre_by_pages resolved into the oracle argument. -/
def handle_postscript_hunt (s : GameState) (rule : CheeseRule) (mult : ℚ)
    (selected : GenreTag) : GameState × List (Material × ℚ) :=
  match selected with
  | .fantasy =>
      let r := apply_enemy_loot s rule.postFantasyEnemy mult
      ({ r.1 with notoriety := fun g => max 0 (r.1.notoriety g - 20) }, r.2)
  | .base g =>
      let r := apply_enemy_loot s rule.postEnemy mult
      (adjust_notoriety r.1 g rule.notorietyGain, r.2)

/-- SimulatorApp._enter_postscript (the sound cue is presentation). -/
def enter_postscript (s : GameState) : GameState :=
  { s with chapterPosition := 7
           currentChapterLength := none
           currentChapterGenre := none
           currentChapterProgress := 0
           pendingChapterChoices := []
           postscriptExtended := false
           pendingChoicesLocked := false }

/-- SimulatorApp._finish_postscript. -/
def finish_postscript (s : GameState) : GameState :=
  { s with chapterPosition := 0
           currentChapterLength := none
           currentChapterGenre := none
           currentChapterProgress := 0
           postscriptLength := 10
           pendingChapterChoices := []
           runFantasyAvailable := false
           currentRunHunts := 0
           genrePages := fun _ => 0
           runMalletsSpent := 0 }

/-- SimulatorApp._handle_chapter_completion.  The oracle list stands
for the freshly generated random choices in the branch that needs them. -/
def handle_chapter_completion (s : GameState) (oracleChoices : List (ℤ × GenreTag)) :
    GameState :=
  if totalChapters ≤ s.chapterPosition then enter_postscript s
  else
    let s1 := { s with currentChapterLength := none
                       currentChapterGenre := none
                       currentChapterProgress := 0
                       pendingChoicesLocked := false }
    if s1.pendingChapterChoices = [] then { s1 with pendingChapterChoices := oracleChoices }
    else s1

/-- SimulatorApp._genres_for_selection with an explicit flag. -/
def genres_for_selection (fantasyAvailable : Bool) : List GenreTag :=
  (BaseGenre.all.map GenreTag.base) ++ (if fantasyAvailable then [GenreTag.fantasy] else [])

/-- The loop body of _generate_next_chapter_choices: walk the fixed
chapter lengths, popping the last genre of the shuffled availability
pool and reshuffling a fresh pool whenever it runs out. -/
def genChoicesGo (genres : List GenreTag) (shuffle : List GenreTag → List GenreTag) :
    List ℤ → List GenreTag → List (ℤ × GenreTag)
  | [], _ => []
  | len :: rest, avail =>
      let avail2 := if avail = [] then shuffle genres else avail
      match avail2.getLast? with
      | none => []
      | some g => (len, g) :: genChoicesGo genres shuffle rest avail2.dropLast

/-- SimulatorApp._generate_next_chapter_choices, with the random
shuffles supplied as an oracle function. -/
def generate_next_chapter_choices (s : GameState)
    (shuffle : List GenreTag → List GenreTag) : List (ℤ × GenreTag) :=
  let genres := genres_for_selection s.runFantasyAvailable
  genChoicesGo genres shuffle chapterLengths (shuffle genres)

/-- SimulatorApp._begin_chapter. -/
def begin_chapter (s : GameState) (chapterNumber len : ℤ) (genre : GenreTag)
    (shuffle : List GenreTag → List GenreTag) : GameState :=
  let s1 := { s with chapterPosition := chapterNumber
                     currentChapterLength := some len
                     currentChapterGenre := some genre
                     currentChapterProgress := 0 }
  if chapterNumber ≤ totalChapters - 1 then
    { s1 with pendingChapterChoices := generate_next_chapter_choices s1 shuffle
              pendingChoicesLocked := true }
  else
    { s1 with pendingChapterChoices := []
              pendingChoicesLocked := false }

/-- SimulatorApp._initialize_new_run_state. -/
def initialize_new_run_state (s : GameState) (fantasyAvailable : Bool) : GameState :=
  { s with genrePages := fun _ => 0
           currentRunHunts := 0
           chapterPosition := 0
           currentChapterLength := none
           currentChapterGenre := none
           currentChapterProgress := 0
           postscriptLength := 10
           pendingChapterChoices := []
           runFantasyAvailable := fantasyAvailable
           postscriptExtended := false
           runMalletsSpent := 0
           pendingChoicesLocked := false }

/-- SimulatorApp._record_mallet_spend (the sound cue is presentation). -/
def record_mallet_spend (s : GameState) (amount : ℤ) : GameState :=
  { s with runMalletsSpent := s.runMalletsSpent + amount
           totalMalletsSpent := s.totalMalletsSpent + amount }

/-- SimulatorApp._start_random_run: the random length and genre picks
are oracle arguments drawn from CHAPTER_LENGTHS and from
_genres_for_selection of the freshly evaluated fantasy_unlocked flag. -/
def start_random_run (s : GameState) (len : ℤ) (genre : GenreTag)
    (shuffle : List GenreTag → List GenreTag) : Option GameState :=
  if s.chapterPosition ≠ 0 then none
  else
    let fa := fantasy_unlocked s
    some (begin_chapter (initialize_new_run_state s fa) 1 len genre shuffle)

/-- SimulatorApp._start_manual_run followed by _confirm_manual_start
for the dialog-confirmed length and genre.  The mallet fee is deducted
on the clone before the fantasy-lock check; a rejection drops the
clone, so it surfaces as none. -/
def start_manual_run (s : GameState) (len : ℤ) (genre : GenreTag)
    (shuffle : List GenreTag → List GenreTag) : Option GameState :=
  if s.chapterPosition ≠ 0 then none
  else if s.resources ResKey.mallets < 30 then none
  else
    let res1 := Function.update s.resources ResKey.mallets (s.resources ResKey.mallets - 30)
    let s1 := { s with resources := res1 }
    let fa := fantasy_unlocked s1
    if genre = GenreTag.fantasy ∧ fa = false then none
    else
      some (begin_chapter (record_mallet_spend (initialize_new_run_state s1 fa) 30)
        1 len genre shuffle)

/-- SimulatorApp._choose_next_chapter.  A choice with a falsy length is
ignored, as are calls without pending choices or with the lock set. -/
def choose_next_chapter (s : GameState) (choice : ℤ × GenreTag)
    (shuffle : List GenreTag → List GenreTag) : Option GameState :=
  if choice.1 = 0 then none
  else if s.pendingChapterChoices = [] then none
  else if s.pendingChoicesLocked then none
  else
    let nextA := min (s.chapterPosition + 1) totalChapters
    let nextB := if nextA ≤ s.chapterPosition then s.chapterPosition + 1 else nextA
    some (begin_chapter s nextB choice.1 choice.2 shuffle)

/-- The target length _perform_hunt progresses against: the postscript
length in the postscript phase, the chapter length otherwise. -/
def targetLengthOf (s : GameState) : Option ℤ :=
  if s.chapterPosition = 7 then some s.postscriptLength else s.currentChapterLength

/-- The in-hunt mutations of _perform_hunt after all precondition
checks passed: cheese deduction, progress and counters, optional CC
deduction and 2x multiplier, and the postscript or chapter branch. -/
def huntEffects (s : GameState) (c : Cheese) (ccEnabled : Bool)
    (oracleGenre : GenreTag) : GameState :=
  let rule := cheeseRule c
  let s1 := { s with
    resources := Function.update s.resources rule.resource (s.resources rule.resource - 1)
    currentChapterProgress := s.currentChapterProgress + 1
    totalHunts := s.totalHunts + 1
    currentRunHunts := s.currentRunHunts + 1 }
  let mult : ℚ := if ccEnabled then 2 else 1
  let s2 :=
    if ccEnabled then
      { s1 with consumables :=
        Function.update s1.consumables ConKey.cc (s1.consumables ConKey.cc - 1) }
    else s1
  if s2.chapterPosition = 7 then (handle_postscript_hunt s2 rule mult oracleGenre).1
  else
    match s2.currentChapterGenre with
    | none => s2
    | some g =>
        let pages := Function.update s2.genrePages g (s2.genrePages g + rule.pageGain)
        (apply_enemy_loot { s2 with genrePages := pages } rule.chapterEnemy mult).1

/-- The mutation body of _perform_hunt: the in-hunt effects followed
by the completion check against the target length. -/
def huntCore (s : GameState) (c : Cheese) (ccEnabled : Bool) (oracleGenre : GenreTag)
    (oracleChoices : List (ℤ × GenreTag)) (target : ℤ) : GameState :=
  let s3 := huntEffects s c ccEnabled oracleGenre
  if target ≤ s3.currentChapterProgress then
    if s3.chapterPosition = 7 then finish_postscript s3
    else handle_chapter_completion s3 oracleChoices
  else s3

/-- SimulatorApp._perform_hunt with a cheese tier supplied.  none means
one of the precondition checks fired and nothing was committed.  The
oracle genre resolves the postscript weighted draw; the oracle choices
resolve the chapter-choice generation of a completion without pending
choices. -/
def perform_hunt (s : GameState) (c : Cheese) (ccEnabled : Bool) (oracleGenre : GenreTag)
    (oracleChoices : List (ℤ × GenreTag)) : Option GameState :=
  if s.chapterPosition = 0 then none
  else if s.pendingChapterChoices ≠ [] ∧ s.pendingChoicesLocked = false ∧
      s.chapterPosition ≤ totalChapters then none
  else if ¬((1 ≤ s.chapterPosition ∧ s.chapterPosition ≤ totalChapters) ∨
      s.chapterPosition = 7) then none
  else
    match targetLengthOf s with
    | none => none
    | some target =>
        if target = 0 then none
        else if s.resources (cheeseRule c).resource ≤ 0 then none
        else some (huntCore s c ccEnabled oracleGenre oracleChoices target)

/-- The enabled condition of the Postscript-extension button computed
by _refresh_hunt_section after every commit. -/
def extendPostscriptAllowed (s : GameState) : Bool :=
  decide (s.chapterPosition = 7) && decide ((30 : ℚ) ≤ s.resources ResKey.mallets) &&
    !s.postscriptExtended

/-- The handler SimulatorApp._extend_postscript. -/
def extendPostscriptHandler (s : GameState) : Option GameState :=
  if s.chapterPosition ≠ 7 then none
  else if s.resources ResKey.mallets < 30 then none
  else some (record_mallet_spend
    { s with resources :=
        Function.update s.resources ResKey.mallets (s.resources ResKey.mallets - 30)
             postscriptLength := s.postscriptLength + 3
             postscriptExtended := true } 30)

/-- The user-facing extend-postscript operation: the button only fires
while _refresh_hunt_section left it enabled, then runs the handler. -/
def extend_postscript (s : GameState) : Option GameState :=
  if extendPostscriptAllowed s then extendPostscriptHandler s else none

/-- SimulatorApp._entry_changed for the notoriety category (clamp set):
parse the entry as an integer, clamp to [0, 200], commit the clone only
when the value changed. -/
def editNotoriety (s : GameState) (g : BaseGenre) (parsed : Option ℤ) : GameState :=
  match parsed with
  | none => s
  | some v =>
      let v2 := max 0 (min 200 v)
      if s.notoriety g = v2 then s
      else { s with notoriety := Function.update s.notoriety g v2 }

/-- The persisted snapshot document (the JSON object written by
GameState.to_dict and read by GameState.from_dict).  Every top-level
field is optional: none stands for the field being absent from the
document.  The enemy-drops field is itself sparse per enemy. -/
structure SnapshotDoc where
  resources : Option (ResKey → ℚ)
  consumables : Option (ConKey → ℚ)
  notoriety : Option (BaseGenre → ℤ)
  enemyDrops : Option (Enemy → Option (List (Material × ℚ)))
  genrePages : Option (GenreTag → ℚ)
  totalHunts : Option ℤ
  currentRunHunts : Option ℤ
  chapterPosition : Option ℤ
  currentChapterLength : Option (Option ℤ)
  currentChapterGenre : Option (Option GenreTag)
  currentChapterProgress : Option ℤ
  postscriptLength : Option ℤ
  pendingChapterChoices : Option (List (ℤ × GenreTag))
  runFantasyAvailable : Option Bool
  postscriptExtended : Option Bool
  runMalletsSpent : Option ℤ
  totalMalletsSpent : Option ℤ
  pendingChoicesLocked : Option Bool
  totalDiamondsGain : Option ℚ

/-- The document with every field absent. -/
def emptyDoc : SnapshotDoc :=
  ⟨none, none, none, none, none, none, none, none, none, none, none, none, none,
   none, none, none, none, none, none⟩

/-- GameState.to_dict: serialize every field. -/
def to_dict (s : GameState) : SnapshotDoc where
  resources := some s.resources
  consumables := some s.consumables
  notoriety := some s.notoriety
  enemyDrops := some fun e => some (s.enemyDrops e)
  genrePages := some s.genrePages
  totalHunts := some s.totalHunts
  currentRunHunts := some s.currentRunHunts
  chapterPosition := some s.chapterPosition
  currentChapterLength := some s.currentChapterLength
  currentChapterGenre := some s.currentChapterGenre
  currentChapterProgress := some s.currentChapterProgress
  postscriptLength := some s.postscriptLength
  pendingChapterChoices := some s.pendingChapterChoices
  runFantasyAvailable := some s.runFantasyAvailable
  postscriptExtended := some s.postscriptExtended
  runMalletsSpent := some s.runMalletsSpent
  totalMalletsSpent := some s.totalMalletsSpent
  pendingChoicesLocked := some s.pendingChoicesLocked
  totalDiamondsGain := some s.totalDiamondsGain

/-- Truncation toward zero, the behaviour of the Python int() call
_copy_genre_pages applies to every stored genre-pages value. -/
def pyTrunc (q : ℚ) : ℤ := if 0 ≤ q then ⌊q⌋ else -⌊-q⌋

/-- GameState.from_dict: start from the dataclass defaults and
override each field independently from the document when present, with
notoriety clamped to [0, 200], genre pages truncated to integers, and
every built-in default enemy back-filled into the drop table. -/
def from_dict (d : SnapshotDoc) : GameState where
  resources := fun k => (d.resources.getD fun _ => 0) k
  consumables := fun k => (d.consumables.getD fun _ => 0) k
  notoriety := fun g => max 0 (min 200 ((d.notoriety.getD fun _ => 0) g))
  enemyDrops := fun e =>
    match d.enemyDrops with
    | none => defaultEnemyDrops e
    | some raw => (raw e).getD (defaultEnemyDrops e)
  genrePages := fun g => ((pyTrunc ((d.genrePages.getD fun _ => 0) g) : ℤ) : ℚ)
  totalHunts := d.totalHunts.getD 0
  currentRunHunts := d.currentRunHunts.getD 0
  chapterPosition := d.chapterPosition.getD 0
  currentChapterLength := d.currentChapterLength.getD none
  currentChapterGenre := d.currentChapterGenre.getD none
  currentChapterProgress := d.currentChapterProgress.getD 0
  postscriptLength := d.postscriptLength.getD 10
  pendingChapterChoices := d.pendingChapterChoices.getD []
  runFantasyAvailable := d.runFantasyAvailable.getD false
  postscriptExtended := d.postscriptExtended.getD false
  runMalletsSpent := d.runMalletsSpent.getD 0
  totalMalletsSpent := d.totalMalletsSpent.getD 0
  pendingChoicesLocked := d.pendingChoicesLocked.getD false
  totalDiamondsGain := d.totalDiamondsGain.getD 0

/-- HistoryManager: the current state plus undo and redo stacks. -/
structure HistoryManager (α : Type) where
  current : α
  undoStack : List α
  redoStack : List α

/-- HistoryManager.commit: push the prior current onto the undo stack,
replace the current state, clear the redo stack. -/
def HistoryManager.commit (h : HistoryManager α) (newState : α) : HistoryManager α :=
  ⟨newState, h.current :: h.undoStack, []⟩

/-- HistoryManager.undo: none (and no change) on an empty undo stack;
otherwise push current onto redo and pop undo into current. -/
def HistoryManager.undo (h : HistoryManager α) : Option (HistoryManager α) :=
  match h.undoStack with
  | [] => none
  | top :: rest => some ⟨top, rest, h.current :: h.redoStack⟩

/-- HistoryManager.redo: the mirror of undo. -/
def HistoryManager.redo (h : HistoryManager α) : Option (HistoryManager α) :=
  match h.redoStack with
  | [] => none
  | top :: rest => some ⟨top, h.current :: h.undoStack, rest⟩

/-- A core operation touching the committed state: a hunt (with its
random draws as oracles), a notoriety field edit, or a snapshot load. -/
inductive SimOp
  | hunt (c : Cheese) (ccEnabled : Bool) (oracleGenre : GenreTag)
      (oracleChoices : List (ℤ × GenreTag))
  | editNot (g : BaseGenre) (parsed : Option ℤ)
  | load (d : SnapshotDoc)

/-- The committed state after one operation: a rejected hunt leaves
the committed state untouched. -/
def SimOp.apply (op : SimOp) (s : GameState) : GameState :=
  match op with
  | .hunt c cc og oc => (perform_hunt s c cc og oc).getD s
  | .editNot g parsed => editNotoriety s g parsed
  | .load d => from_dict d

/-- The committed state after a sequence of operations. -/
def runOps (s : GameState) (ops : List SimOp) : GameState :=
  ops.foldl (fun st op => op.apply st) s

/-- A mid-chapter state: chapter 1 of length 10 in progress, the three
pending next-chapter choices generated and locked, some T1 cheese. -/
def exMidChapter : GameState :=
  { GameState.fresh with
      resources := Function.update GameState.fresh.resources ResKey.t1Cheese 5
      chapterPosition := 1
      currentChapterLength := some 10
      currentChapterGenre := some (GenreTag.base BaseGenre.romance)
      currentChapterProgress := 0
      pendingChapterChoices :=
        [(10, GenreTag.base BaseGenre.adventure), (20, GenreTag.base BaseGenre.comedy),
         (30, GenreTag.base BaseGenre.tragedy)]
      pendingChoicesLocked := true }

/-- A postscript state with mallets, cheese and a mixed notoriety table. -/
def exPostscript : GameState :=
  { GameState.fresh with
      resources := Function.update
        (Function.update GameState.fresh.resources ResKey.t1Cheese 5) ResKey.mallets 40
      notoriety := fun g =>
        match g with
        | .romance => 100
        | .adventure => 1
        | _ => 50
      chapterPosition := 7
      postscriptLength := 10 }

/-- An idle state in which every base genre has notoriety 100. -/
def exAllHigh : GameState :=
  { GameState.fresh with notoriety := fun _ => 100 }

example :
    (extend_postscript exPostscript).map (fun t => t.postscriptLength) = some 13 := by decide

example :
    (extend_postscript exPostscript).map (fun t => t.resources ResKey.mallets) = some 10 := by
  with_unfolding_all rfl

example :
    ((extend_postscript exPostscript).map fun t => t.postscriptExtended) = some true := by
  decide

example : (perform_hunt exMidChapter Cheese.t1 false GenreTag.fantasy []).isSome = true := by
  decide

example :
    ((perform_hunt exMidChapter Cheese.t1 false GenreTag.fantasy []).map
      fun t => t.currentChapterProgress) = some 1 := by decide

example :
    ((perform_hunt exMidChapter Cheese.t1 false GenreTag.fantasy []).map
      fun t => t.resources ResKey.t1Cheese) = some 4 := by with_unfolding_all rfl

example :
    ((perform_hunt exMidChapter Cheese.t1 false GenreTag.fantasy []).map
      fun t => t.genrePages (GenreTag.base BaseGenre.romance)) = some 25 := by with_unfolding_all rfl

example :
    ((perform_hunt exMidChapter Cheese.t1 false GenreTag.fantasy []).map
      fun t => t.resources ResKey.thread) = some 1.54 := by with_unfolding_all rfl

example :
    ((perform_hunt exPostscript Cheese.t1 false (GenreTag.base BaseGenre.romance) []).map
      fun t => t.notoriety BaseGenre.romance) = some 125 := by decide

example :
    ((perform_hunt exPostscript Cheese.t1 false (GenreTag.base BaseGenre.romance) []).map
      fun t => t.notoriety BaseGenre.adventure) = some 1 := by decide

example :
    ((perform_hunt exPostscript Cheese.t1 false (GenreTag.base BaseGenre.romance) []).map
      fun t => t.notoriety BaseGenre.comedy) = some 49 := by decide

example :
    ((perform_hunt exPostscript Cheese.t1 false (GenreTag.base BaseGenre.romance) []).map
      fun t => t.resources ResKey.mallets) = some 41.5 := by with_unfolding_all rfl

example :
    ((perform_hunt exPostscript Cheese.t1 false GenreTag.fantasy []).map
      fun t => t.notoriety BaseGenre.romance) = some 80 := by decide

example :
    ((perform_hunt exPostscript Cheese.t1 false GenreTag.fantasy []).map
      fun t => t.totalDiamondsGain) = some 1 := by with_unfolding_all rfl

example : fantasy_unlocked exAllHigh = true := by decide

example : fantasy_unlocked exPostscript = false := by decide

example :
    (craft recipeT1A (some 2) "2" GameState.fresh).1.consumables ConKey.hooks = -12 := by
  with_unfolding_all rfl

example : (craft recipeT1A (some 0) "0" GameState.fresh).2 = "1" := by decide

example : (craft recipeT2 (some 1) "1" GameState.fresh).1.resources ResKey.t1Cheese = -12 := by
  with_unfolding_all rfl

/-- The entry-wise amount a loot table contributes to one material. -/
def findAmount (l : List (Material × ℚ)) (m : Material) : ℚ :=
  (l.map fun p => if p.1 = m then p.2 else 0).sum

theorem bucket_apply_loot_amount (s : GameState) (m m2 : Material) (a : ℚ) :
    bucket (apply_loot_amount s m a) m2 = bucket s m2 + if m = m2 then a else 0 := by
  cases m with
  | res k =>
      cases m2 with
      | res k2 =>
          simp only [apply_loot_amount, bucket, Function.update_apply, Material.res.injEq]
          rcases eq_or_ne k k2 with h | h
          · subst h
            simp
          · simp [h, Ne.symm h]
      | con k2 => simp [apply_loot_amount, bucket]
  | con k =>
      cases m2 with
      | res k2 => simp [apply_loot_amount, bucket]
      | con k2 =>
          simp only [apply_loot_amount, bucket, Function.update_apply, Material.con.injEq]
          rcases eq_or_ne k k2 with h | h
          · subst h
            simp
          · simp [h, Ne.symm h]

theorem bucket_set_diamonds (s : GameState) (x : ℚ) (m : Material) :
    bucket { s with totalDiamondsGain := x } m = bucket s m := by
  cases m <;> rfl

theorem apply_loot_amount_diamonds (s : GameState) (m : Material) (a : ℚ) :
    (apply_loot_amount s m a).totalDiamondsGain = s.totalDiamondsGain := by
  cases m <;> rfl

theorem lootStep_bucket (mult : ℚ) (acc : GameState × List (Material × ℚ))
    (p : Material × ℚ) (m : Material) :
    bucket (lootStep mult acc p).1 m
      = bucket acc.1 m +
          if p.1 = m then
            (if p.1 = Material.con ConKey.gold ∨ p.1 = Material.res ResKey.diamond then p.2
             else p.2 * mult)
          else 0 := by
  unfold lootStep
  by_cases hd : p.1 = Material.res ResKey.diamond
  · simp [hd, bucket_apply_loot_amount, bucket_set_diamonds]
  · by_cases hg : p.1 = Material.con ConKey.gold
    · simp [hg, hd, bucket_apply_loot_amount]
    · simp [hg, hd, bucket_apply_loot_amount]

theorem lootStep_diamonds (mult : ℚ) (acc : GameState × List (Material × ℚ))
    (p : Material × ℚ) :
    (lootStep mult acc p).1.totalDiamondsGain
      = acc.1.totalDiamondsGain + if p.1 = Material.res ResKey.diamond then p.2 else 0 := by
  unfold lootStep
  by_cases hd : p.1 = Material.res ResKey.diamond
  · simp [hd, apply_loot_amount_diamonds]
  · simp [hd, apply_loot_amount_diamonds]

/-- The state fields the loot engine never touches. -/
def controlEq (t s : GameState) : Prop :=
  t.notoriety = s.notoriety ∧ t.chapterPosition = s.chapterPosition ∧
  t.currentChapterProgress = s.currentChapterProgress ∧
  t.pendingChoicesLocked = s.pendingChoicesLocked ∧
  t.pendingChapterChoices = s.pendingChapterChoices ∧
  t.runFantasyAvailable = s.runFantasyAvailable ∧
  t.postscriptLength = s.postscriptLength ∧
  t.currentChapterLength = s.currentChapterLength ∧
  t.currentChapterGenre = s.currentChapterGenre

theorem controlEq_refl (s : GameState) : controlEq s s := by
  unfold controlEq
  exact ⟨rfl, rfl, rfl, rfl, rfl, rfl, rfl, rfl, rfl⟩

theorem controlEq_trans {a b c : GameState} (h1 : controlEq a b) (h2 : controlEq b c) :
    controlEq a c := by
  unfold controlEq at h1 h2 ⊢
  obtain ⟨e1, e2, e3, e4, e5, e6, e7, e8, e9⟩ := h1
  obtain ⟨f1, f2, f3, f4, f5, f6, f7, f8, f9⟩ := h2
  exact ⟨e1.trans f1, e2.trans f2, e3.trans f3, e4.trans f4, e5.trans f5, e6.trans f6,
    e7.trans f7, e8.trans f8, e9.trans f9⟩

theorem lootStep_control (mult : ℚ) (acc : GameState × List (Material × ℚ))
    (p : Material × ℚ) : controlEq (lootStep mult acc p).1 acc.1 := by
  unfold lootStep controlEq
  rcases p with ⟨m, a⟩
  dsimp only
  split_ifs <;> cases m <;> simp [apply_loot_amount]

theorem lootFold_bucket (mult : ℚ) :
    ∀ (l : List (Material × ℚ)) (st : GameState × List (Material × ℚ)) (m : Material),
      bucket (l.foldl (lootStep mult) st).1 m
        = bucket st.1 m +
            (l.map fun p =>
              if p.1 = m then
                (if p.1 = Material.con ConKey.gold ∨ p.1 = Material.res ResKey.diamond then p.2
                 else p.2 * mult)
              else 0).sum
  | [], st, m => by simp
  | p :: rest, st, m => by
      rw [List.foldl_cons, lootFold_bucket mult rest _ m, lootStep_bucket]
      simp [add_assoc]

theorem lootFold_diamonds (mult : ℚ) :
    ∀ (l : List (Material × ℚ)) (st : GameState × List (Material × ℚ)),
      ((l.foldl (lootStep mult) st).1).totalDiamondsGain
        = st.1.totalDiamondsGain +
            (l.map fun p => if p.1 = Material.res ResKey.diamond then p.2 else 0).sum
  | [], st => by simp
  | p :: rest, st => by
      rw [List.foldl_cons, lootFold_diamonds mult rest _, lootStep_diamonds]
      simp [add_assoc]

theorem lootFold_control (mult : ℚ) :
    ∀ (l : List (Material × ℚ)) (st : GameState × List (Material × ℚ)),
      controlEq ((l.foldl (lootStep mult) st).1) st.1
  | [], st => controlEq_refl st.1
  | p :: rest, st => by
      rw [List.foldl_cons]
      exact controlEq_trans (lootFold_control mult rest _) (lootStep_control mult st p)

theorem apply_enemy_loot_control (s : GameState) (e : Enemy) (mult : ℚ) :
    controlEq (apply_enemy_loot s e mult).1 s :=
  lootFold_control mult (effectiveDrops s e) (s, [])

theorem apply_enemy_loot_notoriety (s : GameState) (e : Enemy) (mult : ℚ) :
    (apply_enemy_loot s e mult).1.notoriety = s.notoriety :=
  (apply_enemy_loot_control s e mult).1

theorem sum_if_key_not_mem (f : Material × ℚ → ℚ) (m : Material) :
    ∀ l : List (Material × ℚ), m ∉ l.map Prod.fst →
      (l.map fun p => if p.1 = m then f p else 0).sum = 0
  | [], _ => by simp
  | p :: rest, h => by
      simp only [List.map_cons, List.mem_cons, not_or] at h
      simp only [List.map_cons, List.sum_cons]
      rw [if_neg fun hp => h.1 hp.symm, sum_if_key_not_mem f m rest h.2]
      simp

theorem sum_if_key_single (f : Material × ℚ → ℚ) (m : Material) (a : ℚ) :
    ∀ l : List (Material × ℚ), (l.map Prod.fst).Nodup → (m, a) ∈ l →
      (l.map fun p => if p.1 = m then f p else 0).sum = f (m, a)
  | p :: rest, hnd, hmem => by
      simp only [List.map_cons, List.nodup_cons] at hnd
      simp only [List.map_cons, List.sum_cons]
      rcases List.mem_cons.mp hmem with heq | hmem2
      · rw [← heq]
        simp only [if_pos rfl]
        rw [sum_if_key_not_mem f m rest (by rw [← heq] at hnd; exact hnd.1)]
        simp
      · have hkey : m ∈ rest.map Prod.fst := List.mem_map.mpr ⟨(m, a), hmem2, rfl⟩
        have hne : p.1 ≠ m := by
          intro hp
          exact hnd.1 (hp ▸ hkey)
        rw [if_neg hne, sum_if_key_single f m a rest hnd.2 hmem2]
        simp

/-- C3: commit followed by undo restores exactly the prior current
state; redo after that undo restores exactly the committed state; a
fresh commit after an undo clears the redo stack, so redo then fails;
undo on an empty undo stack fails (returns none, changing nothing). -/
theorem history_commit_undo_redo {α : Type} (h : HistoryManager α) (n : α) :
    (HistoryManager.undo (h.commit n)
        = some ⟨h.current, h.undoStack, [n]⟩)
  ∧ (HistoryManager.redo (⟨h.current, h.undoStack, [n]⟩ : HistoryManager α)
        = some ⟨n, h.current :: h.undoStack, []⟩)
  ∧ (∀ m : α,
      HistoryManager.redo ((⟨h.current, h.undoStack, [n]⟩ : HistoryManager α).commit m) = none)
  ∧ (∀ g : HistoryManager α, g.undoStack = [] → g.undo = none) := by
  refine ⟨rfl, rfl, fun m => rfl, fun g hg => ?_⟩
  unfold HistoryManager.undo
  rw [hg]

/-- Witness for C3 at a concrete integer-state history. -/
theorem history_commit_undo_redo_witness :
    (HistoryManager.undo (HistoryManager.commit (⟨5, [1], [2]⟩ : HistoryManager ℤ) 9)
        = some ⟨5, [1], [9]⟩)
  ∧ HistoryManager.undo (⟨5, [], [2]⟩ : HistoryManager ℤ) = none :=
  ⟨(history_commit_undo_redo (⟨5, [1], [2]⟩ : HistoryManager ℤ) 9).1,
   (history_commit_undo_redo (⟨5, [1], [2]⟩ : HistoryManager ℤ) 9).2.2.2
     (⟨5, [], [2]⟩ : HistoryManager ℤ) rfl⟩

/-- C4: applying an enemy drop table (with the dict guarantee of
distinct material keys) changes every non-currency bucket by its base
amount times the multiplier, changes Gold and Diamond by exactly their
base amounts, leaves materials outside the table untouched, and adds
every Diamond amount to the lifetime counter total_diamonds_gain. -/
theorem loot_multiplier_spec (s : GameState) (e : Enemy) (mult : ℚ)
    (hnd : ((effectiveDrops s e).map Prod.fst).Nodup) :
    (∀ m a, (m, a) ∈ effectiveDrops s e →
        bucket (apply_enemy_loot s e mult).1 m
          = bucket s m +
              (if m = Material.con ConKey.gold ∨ m = Material.res ResKey.diamond then a
               else a * mult))
  ∧ (∀ m, m ∉ (effectiveDrops s e).map Prod.fst →
        bucket (apply_enemy_loot s e mult).1 m = bucket s m)
  ∧ (apply_enemy_loot s e mult).1.totalDiamondsGain
      = s.totalDiamondsGain + findAmount (effectiveDrops s e) (Material.res ResKey.diamond) := by
  refine ⟨?_, ?_, ?_⟩
  · intro m a hmem
    unfold apply_enemy_loot
    rw [lootFold_bucket mult (effectiveDrops s e) (s, []) m]
    rw [sum_if_key_single
      (fun p => if p.1 = Material.con ConKey.gold ∨ p.1 = Material.res ResKey.diamond then p.2
        else p.2 * mult) m a (effectiveDrops s e) hnd hmem]
  · intro m hmem
    unfold apply_enemy_loot
    rw [lootFold_bucket mult (effectiveDrops s e) (s, []) m]
    rw [sum_if_key_not_mem
      (fun p => if p.1 = Material.con ConKey.gold ∨ p.1 = Material.res ResKey.diamond then p.2
        else p.2 * mult) m (effectiveDrops s e) hmem]
    simp
  · unfold apply_enemy_loot
    rw [lootFold_diamonds mult (effectiveDrops s e) (s, [])]
    rfl

/-- Witness for C4: the tier-2 chapter enemy at multiplier 2 adds its
base 16500 Gold unscaled but its Machinery scaled by 2. -/
theorem loot_multiplier_spec_witness :
    bucket (apply_enemy_loot GameState.fresh Enemy.t2Mouse 2).1 (Material.con ConKey.gold)
      = bucket GameState.fresh (Material.con ConKey.gold) + 16500
  ∧ bucket (apply_enemy_loot GameState.fresh Enemy.t2Mouse 2).1 (Material.res ResKey.machinery)
      = bucket GameState.fresh (Material.res ResKey.machinery) + 2.43 * 2 := by
  constructor
  · have h := (loot_multiplier_spec GameState.fresh Enemy.t2Mouse 2 (by decide)).1
      (Material.con ConKey.gold) 16500 (by decide)
    simpa using h
  · have hmem : (Material.res ResKey.machinery, (2.43 : ℚ)) ∈
        effectiveDrops GameState.fresh Enemy.t2Mouse := List.mem_cons_self _ _
    have h := (loot_multiplier_spec GameState.fresh Enemy.t2Mouse 2 (by decide)).1
      (Material.res ResKey.machinery) 2.43 hmem
    simpa using h

theorem apply_delta_eq_loot (s : GameState) (m : Material) (d : ℚ) :
    apply_delta s m d = apply_loot_amount s m d := by
  cases m <;> rfl

/-- Equality of every GameState field other than the two bucket maps. -/
def nonBucketsEq (t s : GameState) : Prop :=
  t.notoriety = s.notoriety ∧ t.enemyDrops = s.enemyDrops ∧ t.genrePages = s.genrePages ∧
  t.totalHunts = s.totalHunts ∧ t.currentRunHunts = s.currentRunHunts ∧
  t.chapterPosition = s.chapterPosition ∧ t.currentChapterLength = s.currentChapterLength ∧
  t.currentChapterGenre = s.currentChapterGenre ∧
  t.currentChapterProgress = s.currentChapterProgress ∧
  t.postscriptLength = s.postscriptLength ∧
  t.pendingChapterChoices = s.pendingChapterChoices ∧
  t.runFantasyAvailable = s.runFantasyAvailable ∧ t.postscriptExtended = s.postscriptExtended ∧
  t.runMalletsSpent = s.runMalletsSpent ∧ t.totalMalletsSpent = s.totalMalletsSpent ∧
  t.totalDiamondsGain = s.totalDiamondsGain ∧ t.pendingChoicesLocked = s.pendingChoicesLocked

theorem nonBucketsEq_refl (s : GameState) : nonBucketsEq s s := by
  unfold nonBucketsEq
  refine ⟨rfl, rfl, rfl, rfl, rfl, rfl, rfl, rfl, rfl, rfl, rfl, rfl, rfl, rfl, rfl, rfl, rfl⟩

theorem nonBucketsEq_trans {a b c : GameState} (h1 : nonBucketsEq a b)
    (h2 : nonBucketsEq b c) : nonBucketsEq a c := by
  unfold nonBucketsEq at h1 h2 ⊢
  obtain ⟨e1, e2, e3, e4, e5, e6, e7, e8, e9, e10, e11, e12, e13, e14, e15, e16, e17⟩ := h1
  obtain ⟨f1, f2, f3, f4, f5, f6, f7, f8, f9, f10, f11, f12, f13, f14, f15, f16, f17⟩ := h2
  exact ⟨e1.trans f1, e2.trans f2, e3.trans f3, e4.trans f4, e5.trans f5, e6.trans f6,
    e7.trans f7, e8.trans f8, e9.trans f9, e10.trans f10, e11.trans f11, e12.trans f12,
    e13.trans f13, e14.trans f14, e15.trans f15, e16.trans f16, e17.trans f17⟩

theorem apply_delta_nonBuckets (s : GameState) (m : Material) (d : ℚ) :
    nonBucketsEq (apply_delta s m d) s := by
  cases m <;> simp [apply_delta, nonBucketsEq]

theorem bucket_apply_delta (s : GameState) (m m2 : Material) (d : ℚ) :
    bucket (apply_delta s m d) m2 = bucket s m2 + if m = m2 then d else 0 := by
  rw [apply_delta_eq_loot]
  exact bucket_apply_loot_amount s m m2 d

theorem deltaFold_bucket (scale : ℚ) :
    ∀ (l : List (Material × ℚ)) (st : GameState) (m : Material),
      bucket (apply_deltas st l scale) m = bucket st m + scale * findAmount l m
  | [], st, m => by simp [apply_deltas, findAmount]
  | p :: rest, st, m => by
      unfold apply_deltas
      rw [List.foldl_cons]
      have ih := deltaFold_bucket scale rest (apply_delta st p.1 (p.2 * scale)) m
      unfold apply_deltas at ih
      rw [ih, bucket_apply_delta]
      unfold findAmount
      simp only [List.map_cons, List.sum_cons]
      rcases eq_or_ne p.1 m with h | h
      · rw [if_pos h, if_pos h]
        ring
      · rw [if_neg h, if_neg h]
        ring

theorem deltaFold_nonBuckets (scale : ℚ) :
    ∀ (l : List (Material × ℚ)) (st : GameState),
      nonBucketsEq (apply_deltas st l scale) st
  | [], st => nonBucketsEq_refl st
  | p :: rest, st => by
      unfold apply_deltas
      rw [List.foldl_cons]
      have ih := deltaFold_nonBuckets scale rest (apply_delta st p.1 (p.2 * scale))
      unfold apply_deltas at ih
      exact nonBucketsEq_trans ih (apply_delta_nonBuckets st p.1 (p.2 * scale))

/-- C8: crafting a positive integer quantity q changes every bucket by
exactly q times the net of the unit costs and unit outputs of the
recipe, changes no other state field, and leaves the quantity entry
alone; a missing (non-integer) or non-positive parsed quantity is
rejected with no state change and the quantity entry reset to "1". -/
theorem craft_linear (r : Recipe) (q : ℤ) (hq : 0 < q) (fld : String) (s : GameState) :
    (∀ m, bucket (craft r (some q) fld s).1 m
        = bucket s m - (q : ℚ) * findAmount r.costs m + (q : ℚ) * findAmount r.outputs m)
  ∧ (craft r (some q) fld s).2 = fld
  ∧ nonBucketsEq (craft r (some q) fld s).1 s
  ∧ (∀ p : Option ℤ, (∀ k, p = some k → k ≤ 0) → craft r p fld s = (s, "1")) := by
  have hcraft : craft r (some q) fld s
      = (apply_deltas (apply_deltas s r.costs (-(q : ℚ))) r.outputs (q : ℚ), fld) := by
    unfold craft
    dsimp only
    rw [if_neg (by omega : ¬q ≤ 0)]
  refine ⟨?_, ?_, ?_, ?_⟩
  · intro m
    rw [hcraft]
    dsimp only
    rw [deltaFold_bucket (q : ℚ) r.outputs _ m, deltaFold_bucket (-(q : ℚ)) r.costs s m]
    ring
  · rw [hcraft]
  · rw [hcraft]
    exact nonBucketsEq_trans (deltaFold_nonBuckets _ r.outputs _)
      (deltaFold_nonBuckets _ r.costs s)
  · intro p hp
    match p with
    | none => rfl
    | some k =>
        unfold craft
        dsimp only
        rw [if_pos (hp k rfl)]

/-- Witness for C8 at the first recipe with quantity 2. -/
theorem craft_linear_witness :
    bucket (craft recipeT1A (some 2) "2" GameState.fresh).1 (Material.con ConKey.hooks)
      = bucket GameState.fresh (Material.con ConKey.hooks)
        - (2 : ℚ) * findAmount recipeT1A.costs (Material.con ConKey.hooks)
        + (2 : ℚ) * findAmount recipeT1A.outputs (Material.con ConKey.hooks)
  ∧ (craft recipeT1A (some 2) "2" GameState.fresh).2 = "2"
  ∧ craft recipeT1A (some 0) "0" GameState.fresh = (GameState.fresh, "1") :=
  ⟨(craft_linear recipeT1A 2 (by decide) "2" GameState.fresh).1 (Material.con ConKey.hooks),
   (craft_linear recipeT1A 2 (by decide) "2" GameState.fresh).2.1,
   (craft_linear recipeT1A 2 (by decide) "2" GameState.fresh).2.2.2 (some 0)
     (fun k hk => by cases hk; decide)⟩

/-- C10: the crafting engine never checks material sufficiency — for
any positive quantity the craft always commits the linear update, a
costed bucket with no output and an insufficient balance is driven
strictly negative, and concretely one T2-cheese craft from the fresh
all-zero state leaves the T1-cheese resource at -12. -/
theorem craft_no_sufficiency_check (r : Recipe) (q : ℤ) (hq : 0 < q) (fld : String)
    (s : GameState) :
    craft r (some q) fld s
      = (apply_deltas (apply_deltas s r.costs (-(q : ℚ))) r.outputs (q : ℚ), fld)
  ∧ (∀ m, findAmount r.outputs m = 0 → bucket s m < (q : ℚ) * findAmount r.costs m →
        bucket (craft r (some q) fld s).1 m < 0)
  ∧ (craft recipeT2 (some 1) "1" GameState.fresh).1.resources ResKey.t1Cheese = -12 := by
  have hcraft : craft r (some q) fld s
      = (apply_deltas (apply_deltas s r.costs (-(q : ℚ))) r.outputs (q : ℚ), fld) := by
    unfold craft
    dsimp only
    rw [if_neg (by omega : ¬q ≤ 0)]
  refine ⟨hcraft, ?_, ?_⟩
  · intro m hout hlow
    rw [hcraft]
    dsimp only
    rw [deltaFold_bucket (q : ℚ) r.outputs _ m, deltaFold_bucket (-(q : ℚ)) r.costs s m, hout]
    nlinarith [hlow]
  · with_unfolding_all rfl

/-- Witness for C10: quantity 1 of the T2-cheese recipe from the fresh
state drives the T1-cheese resource negative. -/
theorem craft_no_sufficiency_check_witness :
    (craft recipeT2 (some 1) "1" GameState.fresh).1.resources ResKey.t1Cheese = -12 :=
  (craft_no_sufficiency_check recipeT2 1 (by decide) "1" GameState.fresh).2.2

/-- C6: the extend-postscript button fires exactly when the state is
in the Postscript phase with at least 30 mallets and not yet extended
this postscript; on success it deducts the 30-mallet fee, adds 3 to
the postscript length, records the spend, and sets the extended flag,
after which a second extension attempt is rejected; every rejection
(including fewer than 30 mallets) commits nothing, so mallets and
postscript length stay unchanged. -/
theorem extend_postscript_spec (s : GameState) :
    ((extend_postscript s).isSome = true ↔
      (s.chapterPosition = 7 ∧ (30 : ℚ) ≤ s.resources ResKey.mallets ∧
        s.postscriptExtended = false))
  ∧ (∀ t, extend_postscript s = some t →
      t.resources ResKey.mallets = s.resources ResKey.mallets - 30
      ∧ t.postscriptLength = s.postscriptLength + 3
      ∧ t.postscriptExtended = true
      ∧ t.runMalletsSpent = s.runMalletsSpent + 30
      ∧ t.totalMalletsSpent = s.totalMalletsSpent + 30
      ∧ extend_postscript t = none) := by
  constructor
  · unfold extend_postscript extendPostscriptAllowed extendPostscriptHandler
    by_cases h7 : s.chapterPosition = 7
    · by_cases hm : (30 : ℚ) ≤ s.resources ResKey.mallets
      · by_cases he : s.postscriptExtended
        · simp [h7, hm, he]
        · simp [h7, hm, he, not_lt.mpr hm]
      · simp [h7, hm]
    · simp [h7]
  · intro t ht
    unfold extend_postscript at ht
    cases hb : extendPostscriptAllowed s with
    | false =>
        rw [hb] at ht
        simp at ht
    | true =>
        have hcond := hb
        unfold extendPostscriptAllowed at hcond
        simp only [Bool.and_eq_true, decide_eq_true_eq, Bool.not_eq_true'] at hcond
        rw [hb] at ht
        simp only [if_true] at ht
        unfold extendPostscriptHandler at ht
        rw [if_neg (by simp [hcond.1.1]), if_neg (not_lt.mpr hcond.1.2)] at ht
        injection ht with ht2
        subst ht2
        refine ⟨by simp [record_mallet_spend], by simp [record_mallet_spend],
          by simp [record_mallet_spend], by simp [record_mallet_spend],
          by simp [record_mallet_spend], ?_⟩
        unfold extend_postscript extendPostscriptAllowed
        simp [record_mallet_spend]

/-- A concrete postscript state after one successful extension. -/
def exPostAfter : GameState := (extend_postscript exPostscript).getD GameState.fresh

/-- Witness for C6: extending the concrete postscript state adds 3 to
the length, deducts 30 mallets, and a second extension is rejected. -/
theorem extend_postscript_spec_witness :
    exPostAfter.postscriptLength = exPostscript.postscriptLength + 3
  ∧ exPostAfter.resources ResKey.mallets = exPostscript.resources ResKey.mallets - 30
  ∧ extend_postscript exPostAfter = none := by
  have h : extend_postscript exPostscript = some exPostAfter := by with_unfolding_all rfl
  have h2 := (extend_postscript_spec exPostscript).2 exPostAfter h
  exact ⟨h2.2.1, h2.1, h2.2.2.2.2.2⟩

/-- The phase-control fields of the run state machine. -/
def phaseEq (t s : GameState) : Prop :=
  t.chapterPosition = s.chapterPosition ∧
  t.currentChapterProgress = s.currentChapterProgress ∧
  t.pendingChoicesLocked = s.pendingChoicesLocked ∧
  t.pendingChapterChoices = s.pendingChapterChoices ∧
  t.runFantasyAvailable = s.runFantasyAvailable ∧
  t.postscriptLength = s.postscriptLength ∧
  t.currentChapterLength = s.currentChapterLength ∧
  t.currentChapterGenre = s.currentChapterGenre

theorem phaseEq_refl (s : GameState) : phaseEq s s :=
  ⟨rfl, rfl, rfl, rfl, rfl, rfl, rfl, rfl⟩

theorem phaseEq_trans {a b c : GameState} (h1 : phaseEq a b) (h2 : phaseEq b c) :
    phaseEq a c := by
  obtain ⟨e1, e2, e3, e4, e5, e6, e7, e8⟩ := h1
  obtain ⟨f1, f2, f3, f4, f5, f6, f7, f8⟩ := h2
  exact ⟨e1.trans f1, e2.trans f2, e3.trans f3, e4.trans f4, e5.trans f5, e6.trans f6,
    e7.trans f7, e8.trans f8⟩

theorem controlEq_phaseEq {t s : GameState} (h : controlEq t s) : phaseEq t s := h.2

theorem adjust_notoriety_phase (s : GameState) (sel : BaseGenre) (inc : ℤ) :
    phaseEq (adjust_notoriety s sel inc) s :=
  ⟨rfl, rfl, rfl, rfl, rfl, rfl, rfl, rfl⟩

theorem adjust_notoriety_formula (s : GameState) (sel : BaseGenre) (inc : ℤ)
    (g2 : BaseGenre) :
    (adjust_notoriety s sel inc).notoriety g2
      = if g2 = sel then max 0 (min 200 (s.notoriety sel + inc))
        else if 1 < s.notoriety g2 then s.notoriety g2 - 1 else s.notoriety g2 := by
  unfold adjust_notoriety
  dsimp only
  rcases eq_or_ne g2 sel with h | h
  · subst h
    simp [Function.update_same]
  · simp [h, Function.update_noteq h]

theorem handle_postscript_hunt_phase (s : GameState) (rule : CheeseRule) (mult : ℚ)
    (sel : GenreTag) : phaseEq (handle_postscript_hunt s rule mult sel).1 s := by
  cases sel with
  | fantasy =>
      unfold handle_postscript_hunt
      dsimp only
      exact phaseEq_trans (b := (apply_enemy_loot s rule.postFantasyEnemy mult).1)
        ⟨rfl, rfl, rfl, rfl, rfl, rfl, rfl, rfl⟩
        (controlEq_phaseEq (apply_enemy_loot_control s rule.postFantasyEnemy mult))
  | base g =>
      unfold handle_postscript_hunt
      dsimp only
      exact phaseEq_trans (adjust_notoriety_phase _ g rule.notorietyGain)
        (controlEq_phaseEq (apply_enemy_loot_control s rule.postEnemy mult))

theorem huntEffects_phase (s : GameState) (c : Cheese) (cc : Bool) (og : GenreTag) :
    (huntEffects s c cc og).chapterPosition = s.chapterPosition
  ∧ (huntEffects s c cc og).currentChapterProgress = s.currentChapterProgress + 1
  ∧ (huntEffects s c cc og).pendingChoicesLocked = s.pendingChoicesLocked
  ∧ (huntEffects s c cc og).pendingChapterChoices = s.pendingChapterChoices
  ∧ (huntEffects s c cc og).runFantasyAvailable = s.runFantasyAvailable
  ∧ (huntEffects s c cc og).postscriptLength = s.postscriptLength
  ∧ (huntEffects s c cc og).currentChapterLength = s.currentChapterLength := by
  unfold huntEffects
  cases cc with
  | false =>
      simp only [Bool.false_eq_true, if_false]
      split_ifs with h7
      · have hp := handle_postscript_hunt_phase
          { s with
            resources := Function.update s.resources (cheeseRule c).resource
              (s.resources (cheeseRule c).resource - 1)
            currentChapterProgress := s.currentChapterProgress + 1
            totalHunts := s.totalHunts + 1
            currentRunHunts := s.currentRunHunts + 1 } (cheeseRule c) 1 og
        exact ⟨hp.1, hp.2.1, hp.2.2.1, hp.2.2.2.1, hp.2.2.2.2.1, hp.2.2.2.2.2.1,
          hp.2.2.2.2.2.2.1⟩
      · cases hg : s.currentChapterGenre with
        | none => exact ⟨rfl, rfl, rfl, rfl, rfl, rfl, rfl⟩
        | some g =>
            dsimp only
            exact ⟨(controlEq_phaseEq (apply_enemy_loot_control _ _ _)).1,
              (controlEq_phaseEq (apply_enemy_loot_control _ _ _)).2.1,
              (controlEq_phaseEq (apply_enemy_loot_control _ _ _)).2.2.1,
              (controlEq_phaseEq (apply_enemy_loot_control _ _ _)).2.2.2.1,
              (controlEq_phaseEq (apply_enemy_loot_control _ _ _)).2.2.2.2.1,
              (controlEq_phaseEq (apply_enemy_loot_control _ _ _)).2.2.2.2.2.1,
              (controlEq_phaseEq (apply_enemy_loot_control _ _ _)).2.2.2.2.2.2.1⟩
  | true =>
      simp only [if_true]
      split_ifs with h7
      · have hp := handle_postscript_hunt_phase
          { s with
            resources := Function.update s.resources (cheeseRule c).resource
              (s.resources (cheeseRule c).resource - 1)
            currentChapterProgress := s.currentChapterProgress + 1
            totalHunts := s.totalHunts + 1
            currentRunHunts := s.currentRunHunts + 1
            consumables := Function.update s.consumables ConKey.cc
              (s.consumables ConKey.cc - 1) } (cheeseRule c) 2 og
        exact ⟨hp.1, hp.2.1, hp.2.2.1, hp.2.2.2.1, hp.2.2.2.2.1, hp.2.2.2.2.2.1,
          hp.2.2.2.2.2.2.1⟩
      · cases hg : s.currentChapterGenre with
        | none => exact ⟨rfl, rfl, rfl, rfl, rfl, rfl, rfl⟩
        | some g =>
            dsimp only
            exact ⟨(controlEq_phaseEq (apply_enemy_loot_control _ _ _)).1,
              (controlEq_phaseEq (apply_enemy_loot_control _ _ _)).2.1,
              (controlEq_phaseEq (apply_enemy_loot_control _ _ _)).2.2.1,
              (controlEq_phaseEq (apply_enemy_loot_control _ _ _)).2.2.2.1,
              (controlEq_phaseEq (apply_enemy_loot_control _ _ _)).2.2.2.2.1,
              (controlEq_phaseEq (apply_enemy_loot_control _ _ _)).2.2.2.2.2.1,
              (controlEq_phaseEq (apply_enemy_loot_control _ _ _)).2.2.2.2.2.2.1⟩

theorem perform_hunt_some_inv (s : GameState) (c : Cheese) (cc : Bool) (og : GenreTag)
    (oc : List (ℤ × GenreTag)) (t : GameState)
    (h : perform_hunt s c cc og oc = some t) :
    ∃ L, targetLengthOf s = some L ∧ L ≠ 0 ∧ t = huntCore s c cc og oc L := by
  unfold perform_hunt at h
  rcases htl : targetLengthOf s with _ | L <;> rw [htl] at h <;> dsimp only at h <;>
    split_ifs at h <;>
      first
        | exact Option.noConfusion h
        | exact ⟨L, rfl, by assumption, (Option.some.inj h).symm⟩

/-- C2 counterexample: in the concrete locked mid-chapter state the
claimed hunt rejection does not happen — the hunt is accepted and
commits a mutated state. -/
def exMidAfter : GameState :=
  (perform_hunt exMidChapter Cheese.t1 false GenreTag.fantasy []).getD GameState.fresh

theorem locked_hunt_accepted_cx :
    exMidChapter.pendingChoicesLocked = true
  ∧ perform_hunt exMidChapter Cheese.t1 false GenreTag.fantasy [] = some exMidAfter
  ∧ exMidAfter.totalHunts = exMidChapter.totalHunts + 1 := by
  refine ⟨rfl, by with_unfolding_all rfl, by with_unfolding_all rfl⟩

/-- C2 (amended): while pending_choices_locked is true the
choose-next-chapter operation is always rejected with no commit; the
hunt operation is not blocked by the lock — its pending-choice
rejection fires only when choices exist with the lock false — so with
the other hunt preconditions met a locked-state hunt is accepted, and
a hunt clears the lock only by completing the current phase (progress
reaching the target length). -/
theorem locked_blocks_selection_not_hunting (s : GameState) :
    (s.pendingChoicesLocked = true →
      ∀ (choice : ℤ × GenreTag) (sh : List GenreTag → List GenreTag),
        choose_next_chapter s choice sh = none)
  ∧ (∀ c cc og oc t, s.pendingChoicesLocked = true →
      perform_hunt s c cc og oc = some t → t.pendingChoicesLocked = false →
      ∃ L, targetLengthOf s = some L ∧ L ≤ s.currentChapterProgress + 1)
  ∧ (∀ c cc og oc L, s.pendingChoicesLocked = true →
      1 ≤ s.chapterPosition → s.chapterPosition ≤ totalChapters →
      targetLengthOf s = some L → L ≠ 0 →
      0 < s.resources (cheeseRule c).resource →
      (perform_hunt s c cc og oc).isSome = true) := by
  refine ⟨?_, ?_, ?_⟩
  · intro hl choice sh
    unfold choose_next_chapter
    split_ifs <;> rfl
  · intro c cc og oc t hl hh hlf
    obtain ⟨L, htl, hL0, rfl⟩ := perform_hunt_some_inv s c cc og oc t hh
    refine ⟨L, htl, ?_⟩
    by_contra hno
    have hph := huntEffects_phase s c cc og
    have hcond : ¬(L ≤ (huntEffects s c cc og).currentChapterProgress) := by
      rw [hph.2.1]
      exact hno
    unfold huntCore at hlf
    dsimp only at hlf
    rw [if_neg hcond, hph.2.2.1, hl] at hlf
    exact Bool.noConfusion hlf
  · intro c cc og oc L hl h1 h6 htl hL0 hres
    unfold perform_hunt
    rw [if_neg (by omega : ¬s.chapterPosition = 0)]
    rw [if_neg (fun hcon => by
      have hfalse := hcon.2.1
      rw [hl] at hfalse
      exact Bool.noConfusion hfalse)]
    rw [if_neg (not_not_intro (Or.inl ⟨h1, h6⟩))]
    rw [htl]
    dsimp only
    rw [if_neg hL0, if_neg (not_le.mpr hres)]
    rfl

/-- Witness for the amended C2 at the concrete locked mid-chapter
state: selection is rejected while a hunt goes through. -/
theorem locked_blocks_selection_witness :
    choose_next_chapter exMidChapter (10, GenreTag.base BaseGenre.adventure) id = none
  ∧ (perform_hunt exMidChapter Cheese.t1 false GenreTag.fantasy []).isSome = true :=
  ⟨(locked_blocks_selection_not_hunting exMidChapter).1 rfl
      (10, GenreTag.base BaseGenre.adventure) id,
   (locked_blocks_selection_not_hunting exMidChapter).2.2 Cheese.t1 false GenreTag.fantasy
      [] 10 rfl (by decide) (by decide) rfl (by decide) (by decide)⟩

theorem huntEffects_notoriety_postscript (s : GameState) (c : Cheese) (cc : Bool)
    (g : BaseGenre) (h7 : s.chapterPosition = 7) (g2 : BaseGenre) :
    (huntEffects s c cc (GenreTag.base g)).notoriety g2
      = if g2 = g then max 0 (min 200 (s.notoriety g + (cheeseRule c).notorietyGain))
        else if 1 < s.notoriety g2 then s.notoriety g2 - 1 else s.notoriety g2 := by
  unfold huntEffects
  cases cc with
  | false =>
      simp only [Bool.false_eq_true, if_false]
      rw [if_pos h7]
      unfold handle_postscript_hunt
      dsimp only
      rw [adjust_notoriety_formula, apply_enemy_loot_notoriety]
  | true =>
      simp only [if_true]
      rw [if_pos h7]
      unfold handle_postscript_hunt
      dsimp only
      rw [adjust_notoriety_formula, apply_enemy_loot_notoriety]

theorem huntCore_notoriety_postscript (s : GameState) (c : Cheese) (cc : Bool)
    (g : BaseGenre) (oc : List (ℤ × GenreTag)) (L : ℤ) (h7 : s.chapterPosition = 7) :
    (huntCore s c cc (GenreTag.base g) oc L).notoriety
      = (huntEffects s c cc (GenreTag.base g)).notoriety := by
  unfold huntCore
  dsimp only
  split_ifs with hc hp
  · rfl
  · exact absurd ((huntEffects_phase s c cc (GenreTag.base g)).1.trans h7) hp
  · rfl

/-- C5 counterexample: in the concrete postscript state the Adventure
genre sits at notoriety 1; the claim says a non-bonus-draw postscript
hunt drops it to 0, but the committed state still has it at 1. -/
def exPostHuntAfter : GameState :=
  (perform_hunt exPostscript Cheese.t1 false (GenreTag.base BaseGenre.romance) []).getD
    GameState.fresh

theorem postscript_decay_floor_cx :
    perform_hunt exPostscript Cheese.t1 false (GenreTag.base BaseGenre.romance) []
      = some exPostHuntAfter
  ∧ exPostscript.notoriety BaseGenre.adventure = 1
  ∧ exPostHuntAfter.notoriety BaseGenre.adventure = 1 := by
  refine ⟨by with_unfolding_all rfl, rfl, by with_unfolding_all rfl⟩

/-- C5 (amended): a postscript hunt whose weighted draw resolves to a
non-bonus genre is accepted (given the postscript preconditions),
raises the drawn genre by the tier's fixed gain clamped to [0, 200],
and decrements every other base genre by exactly 1 only while that
genre is strictly above 1 — a genre at 1 stays at 1 and a genre at 0
stays at 0. -/
theorem postscript_hunt_notoriety (s : GameState) (c : Cheese) (cc : Bool) (g : BaseGenre)
    (oc : List (ℤ × GenreTag)) (h7 : s.chapterPosition = 7)
    (hlen : s.postscriptLength ≠ 0) (hres : 0 < s.resources (cheeseRule c).resource) :
    ∃ t, perform_hunt s c cc (GenreTag.base g) oc = some t
      ∧ t.notoriety g = max 0 (min 200 (s.notoriety g + (cheeseRule c).notorietyGain))
      ∧ ∀ g2, g2 ≠ g →
          t.notoriety g2
            = if 1 < s.notoriety g2 then s.notoriety g2 - 1 else s.notoriety g2 := by
  refine ⟨huntCore s c cc (GenreTag.base g) oc s.postscriptLength, ?_, ?_, ?_⟩
  · unfold perform_hunt
    rw [if_neg (by omega : ¬s.chapterPosition = 0)]
    rw [if_neg (fun hcon => absurd (h7 ▸ hcon.2.2) (by decide))]
    rw [if_neg (not_not_intro (Or.inr h7))]
    rw [show targetLengthOf s = some s.postscriptLength from by
      unfold targetLengthOf
      rw [if_pos h7]]
    dsimp only
    rw [if_neg hlen, if_neg (not_le.mpr hres)]
  · rw [huntCore_notoriety_postscript s c cc g oc _ h7,
      huntEffects_notoriety_postscript s c cc g h7 g, if_pos rfl]
  · intro g2 hne
    rw [huntCore_notoriety_postscript s c cc g oc _ h7,
      huntEffects_notoriety_postscript s c cc g h7 g2, if_neg hne]

/-- Witness for the amended C5 at the concrete postscript state with a
Romance draw. -/
theorem postscript_hunt_notoriety_witness :
    ∃ t, perform_hunt exPostscript Cheese.t1 false (GenreTag.base BaseGenre.romance) []
        = some t
      ∧ t.notoriety BaseGenre.romance
          = max 0 (min 200 (exPostscript.notoriety BaseGenre.romance
              + (cheeseRule Cheese.t1).notorietyGain))
      ∧ ∀ g2, g2 ≠ BaseGenre.romance →
          t.notoriety g2
            = if 1 < exPostscript.notoriety g2 then exPostscript.notoriety g2 - 1
              else exPostscript.notoriety g2 :=
  postscript_hunt_notoriety exPostscript Cheese.t1 false BaseGenre.romance [] rfl
    (by decide) (by decide)

theorem mem_of_getLast_opt {l : List GenreTag} {a : GenreTag} (h : l.getLast? = some a) :
    a ∈ l := by
  obtain ⟨hne, heq⟩ := List.mem_getLast?_eq_getLast (Option.mem_def.mpr h)
  rw [heq]
  exact List.getLast_mem hne

theorem fantasy_unlocked_iff (s : GameState) :
    fantasy_unlocked s = true ↔ ∀ g, 80 < s.notoriety g := by
  unfold fantasy_unlocked
  rw [List.all_eq_true]
  constructor
  · intro h g
    exact of_decide_eq_true (h g (by cases g <;> simp [BaseGenre.all]))
  · intro h g _
    exact decide_eq_true (h g)

theorem fantasy_mem_pool_iff (b : Bool) :
    GenreTag.fantasy ∈ genres_for_selection b ↔ b = true := by
  cases b <;> simp [genres_for_selection, BaseGenre.all]

theorem begin_chapter_flag (x : GameState) (n len : ℤ) (g : GenreTag)
    (sh : List GenreTag → List GenreTag) :
    (begin_chapter x n len g sh).runFantasyAvailable = x.runFantasyAvailable := by
  unfold begin_chapter
  dsimp only
  split_ifs <;> rfl

theorem handle_chapter_completion_flag (x : GameState) (oc : List (ℤ × GenreTag)) :
    (handle_chapter_completion x oc).runFantasyAvailable = x.runFantasyAvailable := by
  unfold handle_chapter_completion enter_postscript
  dsimp only
  split_ifs <;> rfl

theorem genChoicesGo_mem (genres : List GenreTag) (sh : List GenreTag → List GenreTag)
    (hsh : ∀ l, List.Perm (sh l) l) :
    ∀ (lens : List ℤ) (avail : List GenreTag), (∀ x, x ∈ avail → x ∈ genres) →
      ∀ p, p ∈ genChoicesGo genres sh lens avail → p.2 ∈ genres
  | [], _, _, p, hp => absurd hp (List.not_mem_nil p)
  | len :: rest, avail, hav, p, hp => by
      unfold genChoicesGo at hp
      dsimp only at hp
      by_cases he : avail = []
      · rw [if_pos he] at hp
        cases hg : (sh genres).getLast? with
        | none =>
            rw [hg] at hp
            exact absurd hp (List.not_mem_nil p)
        | some g =>
            rw [hg] at hp
            dsimp only at hp
            rcases List.mem_cons.mp hp with rfl | hp2
            · exact ((hsh genres).mem_iff).mp (mem_of_getLast_opt hg)
            · exact genChoicesGo_mem genres sh hsh rest _ (fun x hx =>
                ((hsh genres).mem_iff).mp (List.mem_of_mem_dropLast hx)) p hp2
      · rw [if_neg he] at hp
        cases hg : avail.getLast? with
        | none =>
            rw [hg] at hp
            exact absurd hp (List.not_mem_nil p)
        | some g =>
            rw [hg] at hp
            dsimp only at hp
            rcases List.mem_cons.mp hp with rfl | hp2
            · exact hav g (mem_of_getLast_opt hg)
            · exact genChoicesGo_mem genres sh hsh rest _ (fun x hx =>
                hav x (List.mem_of_mem_dropLast hx)) p hp2

theorem editNotoriety_flag (s : GameState) (g : BaseGenre) (parsed : Option ℤ) :
    (editNotoriety s g parsed).runFantasyAvailable = s.runFantasyAvailable := by
  unfold editNotoriety
  cases parsed with
  | none => rfl
  | some v =>
      dsimp only
      split_ifs <;> rfl

/-- C7: the bonus Fantasy genre is in a run's selection pool exactly
when every base genre's notoriety exceeded 80 at the moment the run
started; both start operations freeze that evaluation into
run_fantasy_available, a manual Fantasy pick is rejected when the flag
is off, the choice-generation pool is driven purely by the frozen
flag, and neither notoriety edits nor chapter selection nor any hunt
that does not end the run changes the frozen flag. -/
theorem fantasy_gating (s : GameState) :
    (fantasy_unlocked s = true ↔ ∀ g, 80 < s.notoriety g)
  ∧ (GenreTag.fantasy ∈ genres_for_selection (fantasy_unlocked s) ↔
      ∀ g, 80 < s.notoriety g)
  ∧ (∀ len g sh t, start_random_run s len g sh = some t →
      t.runFantasyAvailable = fantasy_unlocked s)
  ∧ (∀ len g sh t, start_manual_run s len g sh = some t →
      t.runFantasyAvailable = fantasy_unlocked s)
  ∧ (∀ len sh, fantasy_unlocked s = false →
      start_manual_run s len GenreTag.fantasy sh = none)
  ∧ (∀ sh, (∀ l, List.Perm (sh l) l) →
      ∀ p, p ∈ generate_next_chapter_choices s sh →
        p.2 ∈ genres_for_selection s.runFantasyAvailable)
  ∧ (GenreTag.fantasy ∈ genres_for_selection s.runFantasyAvailable ↔
      s.runFantasyAvailable = true)
  ∧ (∀ g parsed, (editNotoriety s g parsed).runFantasyAvailable = s.runFantasyAvailable)
  ∧ (∀ ch sh t, choose_next_chapter s ch sh = some t →
      t.runFantasyAvailable = s.runFantasyAvailable)
  ∧ (∀ c cc og oc t, perform_hunt s c cc og oc = some t → t.chapterPosition ≠ 0 →
      t.runFantasyAvailable = s.runFantasyAvailable) := by
  refine ⟨fantasy_unlocked_iff s,
    (fantasy_mem_pool_iff (fantasy_unlocked s)).trans (fantasy_unlocked_iff s),
    ?_, ?_, ?_, ?_, fantasy_mem_pool_iff s.runFantasyAvailable,
    editNotoriety_flag s, ?_, ?_⟩
  · intro len g sh t ht
    unfold start_random_run at ht
    split_ifs at ht
    injection ht with ht2
    subst ht2
    rw [begin_chapter_flag]
    rfl
  · intro len g sh t ht
    unfold start_manual_run at ht
    split_ifs at ht with h1 h2
    dsimp only at ht
    split_ifs at ht with h3
    injection ht with ht2
    subst ht2
    rw [begin_chapter_flag]
    rfl
  · intro len sh hfu
    unfold start_manual_run
    split_ifs with h1 h2
    · rfl
    · rfl
    · dsimp only
      split_ifs with h3
      · rfl
      · exact absurd ⟨rfl, hfu⟩ h3
  · intro sh hsh p hp
    unfold generate_next_chapter_choices at hp
    dsimp only at hp
    exact genChoicesGo_mem (genres_for_selection s.runFantasyAvailable) sh hsh
      chapterLengths _ (fun x hx => ((hsh _).mem_iff).mp hx) p hp
  · intro ch sh t ht
    unfold choose_next_chapter at ht
    split_ifs at ht
    injection ht with ht2
    subst ht2
    rw [begin_chapter_flag]
  · intro c cc og oc t hh ht0
    obtain ⟨L, htl, hL0, rfl⟩ := perform_hunt_some_inv s c cc og oc t hh
    have hph := huntEffects_phase s c cc og
    unfold huntCore at ht0 ⊢
    dsimp only at ht0 ⊢
    split_ifs at ht0 ⊢ with hc hp
    · exact absurd rfl ht0
    · rw [handle_chapter_completion_flag]
      exact hph.2.2.2.2.1
    · exact hph.2.2.2.2.1

/-- A concrete run start from the all-high-notoriety idle state. -/
def exRunStart : GameState :=
  (start_random_run exAllHigh 10 (GenreTag.base BaseGenre.romance) id).getD GameState.fresh

/-- Witness for C7: from the all-100 idle state the bonus genre is
unlocked, the started run records the frozen flag, and a notoriety
edit leaves the frozen flag alone. -/
theorem fantasy_gating_witness :
    fantasy_unlocked exAllHigh = true
  ∧ exRunStart.runFantasyAvailable = fantasy_unlocked exAllHigh
  ∧ (editNotoriety exAllHigh BaseGenre.romance (some 0)).runFantasyAvailable
      = exAllHigh.runFantasyAvailable :=
  ⟨(fantasy_gating exAllHigh).1.mpr (fun g => by cases g <;> decide),
   (fantasy_gating exAllHigh).2.2.1 10 (GenreTag.base BaseGenre.romance) id exRunStart
     (by with_unfolding_all rfl),
   (fantasy_gating exAllHigh).2.2.2.2.2.2.2.1 BaseGenre.romance (some 0)⟩

/-- Every base-genre notoriety value lies in [0, 200]. -/
def notorietyInRange (s : GameState) : Prop :=
  ∀ g, 0 ≤ s.notoriety g ∧ s.notoriety g ≤ 200

theorem clamp_in_range (v : ℤ) : 0 ≤ max 0 (min 200 v) ∧ max 0 (min 200 v) ≤ 200 :=
  ⟨le_max_left 0 _, max_le (by norm_num) ((min_le_left 200 v).trans (by norm_num))⟩

theorem adjust_notoriety_range (s : GameState) (sel : BaseGenre) (inc : ℤ)
    (h : notorietyInRange s) : notorietyInRange (adjust_notoriety s sel inc) := by
  intro g2
  rw [adjust_notoriety_formula]
  split_ifs with h1 h2
  · exact clamp_in_range _
  · have hb := h g2
    omega
  · exact h g2

theorem handle_postscript_hunt_notoriety_range (x : GameState) (rule : CheeseRule)
    (mult : ℚ) (sel : GenreTag) (h : notorietyInRange x) :
    notorietyInRange (handle_postscript_hunt x rule mult sel).1 := by
  cases sel with
  | fantasy =>
      unfold handle_postscript_hunt
      dsimp only
      intro g
      rw [apply_enemy_loot_notoriety]
      have hb := (h g).2
      exact ⟨le_max_left 0 _, max_le (by norm_num) (by omega)⟩
  | base g0 =>
      unfold handle_postscript_hunt
      dsimp only
      apply adjust_notoriety_range
      intro g
      rw [apply_enemy_loot_notoriety]
      exact h g

theorem huntEffects_notoriety_range (s : GameState) (c : Cheese) (cc : Bool)
    (og : GenreTag) (h : notorietyInRange s) :
    notorietyInRange (huntEffects s c cc og) := by
  unfold huntEffects
  cases cc with
  | false =>
      simp only [Bool.false_eq_true, if_false]
      split_ifs with h7
      · apply handle_postscript_hunt_notoriety_range
        intro g
        exact h g
      · cases hg : s.currentChapterGenre with
        | none =>
            intro g
            exact h g
        | some g0 =>
            intro g
            rw [apply_enemy_loot_notoriety]
            exact h g
  | true =>
      simp only [if_true]
      split_ifs with h7
      · apply handle_postscript_hunt_notoriety_range
        intro g
        exact h g
      · cases hg : s.currentChapterGenre with
        | none =>
            intro g
            exact h g
        | some g0 =>
            intro g
            rw [apply_enemy_loot_notoriety]
            exact h g

theorem handle_chapter_completion_notoriety (x : GameState) (oc : List (ℤ × GenreTag)) :
    (handle_chapter_completion x oc).notoriety = x.notoriety := by
  unfold handle_chapter_completion enter_postscript
  dsimp only
  split_ifs <;> rfl

theorem huntCore_notoriety_range (s : GameState) (c : Cheese) (cc : Bool) (og : GenreTag)
    (oc : List (ℤ × GenreTag)) (L : ℤ) (h : notorietyInRange s) :
    notorietyInRange (huntCore s c cc og oc L) := by
  unfold huntCore
  dsimp only
  split_ifs with hc hp
  · exact huntEffects_notoriety_range s c cc og h
  · intro g
    rw [handle_chapter_completion_notoriety]
    exact huntEffects_notoriety_range s c cc og h g
  · exact huntEffects_notoriety_range s c cc og h

theorem perform_hunt_getD_range (s : GameState) (c : Cheese) (cc : Bool) (og : GenreTag)
    (oc : List (ℤ × GenreTag)) (h : notorietyInRange s) :
    notorietyInRange ((perform_hunt s c cc og oc).getD s) := by
  cases hh : perform_hunt s c cc og oc with
  | none => exact h
  | some t =>
      obtain ⟨L, htl, hL0, rfl⟩ := perform_hunt_some_inv s c cc og oc t hh
      exact huntCore_notoriety_range s c cc og oc L h

theorem editNotoriety_range (s : GameState) (g : BaseGenre) (parsed : Option ℤ)
    (h : notorietyInRange s) : notorietyInRange (editNotoriety s g parsed) := by
  unfold editNotoriety
  cases parsed with
  | none => exact h
  | some v =>
      dsimp only
      split_ifs with heq
      · exact h
      · intro g2
        dsimp only
        rw [Function.update_apply]
        split_ifs with h2
        · exact clamp_in_range v
        · exact h g2

theorem from_dict_range (d : SnapshotDoc) : notorietyInRange (from_dict d) := by
  intro g
  exact clamp_in_range _

theorem simOp_apply_range (op : SimOp) (s : GameState) (h : notorietyInRange s) :
    notorietyInRange (op.apply s) := by
  cases op with
  | hunt c cc og oc => exact perform_hunt_getD_range s c cc og oc h
  | editNot g parsed => exact editNotoriety_range s g parsed h
  | load d => exact from_dict_range d

/-- C1: after any sequence of core operations (hunts in chapters or
the postscript, notoriety field edits, snapshot loads) starting from
the fresh state, every base genre's notoriety stays within [0, 200]. -/
theorem notoriety_always_in_bounds (ops : List SimOp) (g : BaseGenre) :
    0 ≤ (runOps GameState.fresh ops).notoriety g
  ∧ (runOps GameState.fresh ops).notoriety g ≤ 200 := by
  have main : ∀ (l : List SimOp) (s : GameState), notorietyInRange s →
      notorietyInRange (runOps s l) := by
    intro l
    induction l with
    | nil => exact fun s h => h
    | cons op rest ih =>
        intro s h
        exact ih (op.apply s) (simOp_apply_range op s h)
  exact main ops GameState.fresh (fun g2 => by constructor <;> norm_num [GameState.fresh]) g

theorem pyTrunc_intCast (k : ℤ) : pyTrunc (k : ℚ) = k := by
  unfold pyTrunc
  split_ifs with h
  · exact_mod_cast Int.floor_intCast k
  · rw [show -(k : ℚ) = ((-k : ℤ) : ℚ) by push_cast; ring, Int.floor_intCast]
    ring

/-- C9: saving a state and loading the document back yields the state
field for field, except that each notoriety value is clamped to
[0, 200] (the integer-valued genre-pages hypothesis holds in every
state the program can produce, page gains being whole numbers);
loading is total on documents with any subset of fields absent — the
all-absent document loads to the dataclass-default fresh state, and
for every document each field is defaulted independently, with every
built-in default enemy back-filled into the drop table. -/
theorem snapshot_roundtrip (s : GameState)
    (hpages : ∀ g, ∃ k : ℤ, s.genrePages g = (k : ℚ)) :
    from_dict (to_dict s)
        = { s with notoriety := fun g => max 0 (min 200 (s.notoriety g)) }
  ∧ from_dict emptyDoc = GameState.fresh
  ∧ (∀ (d : SnapshotDoc) (e : Enemy),
      (from_dict d).enemyDrops e
        = ((d.enemyDrops.getD fun _ => none) e).getD (defaultEnemyDrops e))
  ∧ (∀ d : SnapshotDoc, (from_dict d).postscriptLength = d.postscriptLength.getD 10)
  ∧ (∀ (d : SnapshotDoc) (g : BaseGenre),
      (from_dict d).notoriety g = max 0 (min 200 ((d.notoriety.getD fun _ => 0) g))) := by
  refine ⟨?_, ?_, ?_, fun d => rfl, fun d g => rfl⟩
  · refine GameState.ext rfl rfl rfl rfl ?_ rfl rfl rfl rfl rfl rfl rfl rfl rfl rfl rfl
      rfl rfl rfl
    funext g
    obtain ⟨k, hk⟩ := hpages g
    show ((pyTrunc (s.genrePages g) : ℤ) : ℚ) = s.genrePages g
    rw [hk, pyTrunc_intCast]
  · refine GameState.ext rfl rfl ?_ rfl ?_ rfl rfl rfl rfl rfl rfl rfl rfl rfl rfl rfl
      rfl rfl rfl
    · funext g
      show max 0 (min 200 0) = (0 : ℤ)
      norm_num
    · funext g
      show ((pyTrunc 0 : ℤ) : ℚ) = 0
      rw [show (0 : ℚ) = ((0 : ℤ) : ℚ) by norm_num, pyTrunc_intCast]
  · intro d e
    cases hd : d.enemyDrops with
    | none => simp [from_dict, hd]
    | some raw => simp [from_dict, hd]

/-- Witness for C9 at the fresh state (all genre pages are 0, hence
integral). -/
theorem snapshot_roundtrip_witness :
    from_dict (to_dict GameState.fresh)
      = { GameState.fresh with
          notoriety := fun g => max 0 (min 200 (GameState.fresh.notoriety g)) }
  ∧ from_dict emptyDoc = GameState.fresh :=
  ⟨(snapshot_roundtrip GameState.fresh (fun g => ⟨0, by norm_num [GameState.fresh]⟩)).1,
   (snapshot_roundtrip GameState.fresh (fun g => ⟨0, by norm_num [GameState.fresh]⟩)).2.1⟩

end Cliff
